/-
Verification development for the Smart Student Hub front-end
(`frontend/js/activities.js` and `frontend/js/portfolio.js`).

The multi-step activity-submission controller (`ActivityManager`) is shallowly
embedded: DOM-held state (current step, field values, per-field error markers,
the selected-file list) becomes an explicit `FormState` record, and each method
becomes a state-transforming function.  Asynchronous network calls are modelled
by passing the eventual result (`Except`) as an argument and returning, next to
the new state, whether a network request was issued.

JavaScript string builtins used by the validation code (`String.prototype.trim`,
`.length`, `isNaN` on a string, `parseInt`, `new Date` on a date-input value)
are embedded as Lean functions over `String` following ECMAScript semantics on
the relevant fragments; each carries a comment stating what it models.
-/
import Mathlib

namespace StudentHub

/-! ## JavaScript string primitives -/

/-- The ECMAScript `WhiteSpace` and `LineTerminator` code points recognised by
`String.prototype.trim` and skipped by `parseInt` / `ToNumber`. -/
def jsIsWhitespace (c : Char) : Bool :=
  c = ' ' || c = '\t' || c = '\n' || c = '\r' ||
  c = '\x0b' || c = '\x0c' || c = ' ' || c = ' ' ||
  (' ' ≤ c && c ≤ ' ') || c = ' ' || c = ' ' ||
  c = ' ' || c = ' ' || c = '　' || c = '﻿'

/-- `String.prototype.trim`: strip leading and trailing JS whitespace. -/
def jsTrim (s : String) : String :=
  String.mk (((s.data.dropWhile jsIsWhitespace).reverse.dropWhile jsIsWhitespace).reverse)

/-- JS `string.length`: the number of UTF-16 code units. -/
def jsLength (s : String) : Nat :=
  s.data.foldl (fun n c => n + c.utf16Size.toNat) 0

def isDecDigit (c : Char) : Bool := '0' ≤ c && c ≤ '9'

def isHexDigit (c : Char) : Bool :=
  isDecDigit c || ('a' ≤ c && c ≤ 'f') || ('A' ≤ c && c ≤ 'F')

def isOctDigit (c : Char) : Bool := '0' ≤ c && c ≤ '7'

def isBinDigit (c : Char) : Bool := c = '0' || c = '1'

/-- Numeric value of a (decimal or hexadecimal) digit character. -/
def digitVal (c : Char) : Nat :=
  if isDecDigit c then c.toNat - '0'.toNat
  else if 'a' ≤ c && c ≤ 'f' then c.toNat - 'a'.toNat + 10
  else if 'A' ≤ c && c ≤ 'F' then c.toNat - 'A'.toNat + 10
  else 0

/-- Value of a digit string in the given radix. -/
def digitsToNat (radix : Nat) (ds : List Char) : Nat :=
  ds.foldl (fun n c => n * radix + digitVal c) 0

/-- ECMAScript `parseInt(string)` with no radix argument: skip leading
whitespace, read an optional sign, detect a `0x`/`0X` hexadecimal marker
(otherwise radix 10), and parse the longest digit run; `none` models the
`NaN` result when no digit is found. -/
def jsParseInt (s : String) : Option Int :=
  let cs := s.data.dropWhile jsIsWhitespace
  let sign : Int := match cs with | '-' :: _ => -1 | _ => 1
  let cs := match cs with | '-' :: r => r | '+' :: r => r | _ => cs
  let hexTail : Option (List Char) := match cs with
    | '0' :: 'x' :: r => some r
    | '0' :: 'X' :: r => some r
    | _ => none
  match hexTail with
  | some r =>
    let ds := r.takeWhile isHexDigit
    if ds.isEmpty then none else some (sign * (digitsToNat 16 ds : Int))
  | none =>
    let ds := cs.takeWhile isDecDigit
    if ds.isEmpty then none else some (sign * (digitsToNat 10 ds : Int))

/-- Recognise `DecimalDigits [ExponentPart]` after an `e`/`E`, i.e. an
optional sign followed by a non-empty digit run. -/
def isSignedDigits (cs : List Char) : Bool :=
  let cs := match cs with | '+' :: r => r | '-' :: r => r | _ => cs
  !cs.isEmpty && cs.all isDecDigit

/-- Recognise an optional `ExponentPart` consuming the whole remainder. -/
def isExpTail (cs : List Char) : Bool :=
  match cs with
  | [] => true
  | 'e' :: r => isSignedDigits r
  | 'E' :: r => isSignedDigits r
  | _ => false

/-- Recognise ECMAScript `StrUnsignedDecimalLiteral`:
`Infinity`, `Digits [. [Digits]] [Exp]`, or `. Digits [Exp]`. -/
def isUnsignedDecLit (cs : List Char) : Bool :=
  if cs = "Infinity".data then true
  else
    let intDigits := cs.takeWhile isDecDigit
    let rest := cs.drop intDigits.length
    if intDigits.isEmpty then
      match rest with
      | '.' :: r =>
        let frac := r.takeWhile isDecDigit
        !frac.isEmpty && isExpTail (r.drop frac.length)
      | _ => false
    else
      match rest with
      | '.' :: r =>
        let frac := r.takeWhile isDecDigit
        isExpTail (r.drop frac.length)
      | _ => isExpTail rest

/-- Recognise ECMAScript `StrNumericLiteral` (without surrounding
whitespace): a non-decimal `0x`/`0o`/`0b` integer literal, or an optionally
signed decimal literal. -/
def isStrNumericLiteral (cs : List Char) : Bool :=
  match cs with
  | '0' :: 'x' :: r => !r.isEmpty && r.all isHexDigit
  | '0' :: 'X' :: r => !r.isEmpty && r.all isHexDigit
  | '0' :: 'o' :: r => !r.isEmpty && r.all isOctDigit
  | '0' :: 'O' :: r => !r.isEmpty && r.all isOctDigit
  | '0' :: 'b' :: r => !r.isEmpty && r.all isBinDigit
  | '0' :: 'B' :: r => !r.isEmpty && r.all isBinDigit
  | _ =>
    let cs := match cs with | '+' :: r => r | '-' :: r => r | _ => cs
    isUnsignedDecLit cs

/-- `ToNumber(string)` is not `NaN`: the trimmed string is empty (value `0`)
or a well-formed numeric literal.  JS `isNaN(v)` on a string is its
negation. -/
def jsIsNumeric (s : String) : Bool :=
  let t := jsTrim s
  t.isEmpty || isStrNumericLiteral t.data

/-- JS `isNaN(v)` for a string argument. -/
def jsIsNaN (s : String) : Bool := !jsIsNumeric s

/-! ## Field-level validation (`ActivityManager.validateField`)

The method clears any previous error marker, checks `required`/emptiness,
then a `switch` on the field name may overwrite the error message.  The
required check and every `switch` case are mutually exclusive (the former
needs an empty trimmed value, the latter a non-empty one), but the embedding
keeps the overwrite order of the source. -/

/-- `parseInt(value) < 1` as evaluated by JS: a `NaN` comparison is false. -/
def parseIntLtOne (s : String) : Bool :=
  match jsParseInt s with
  | none => false
  | some n => n < 1

/-- The error message (if any) computed by `validateField` for a control with
the given `required` attribute, `name` and raw `value`.  `none` means the
field is valid. -/
def validateFieldError (required : Bool) (name value : String) : Option String :=
  let v := jsTrim value
  let requiredErr : Option String :=
    if required && v.isEmpty then some "This field is required" else none
  let specificErr : Option String :=
    if name = "title" then
      if !v.isEmpty && jsLength v < 3 then some "Title must be at least 3 characters" else none
    else if name = "description" then
      if !v.isEmpty && jsLength v < 10 then some "Description must be at least 10 characters" else none
    else if name = "durationHours" then
      if !v.isEmpty && (jsIsNaN v || parseIntLtOne v) then some "Duration must be a positive number" else none
    else none
  -- the switch assignment overwrites the earlier required message
  specificErr <|> requiredErr

example : validateFieldError true "durationHours" "-5" = some "Duration must be a positive number" := by decide
example : validateFieldError true "durationHours" "3" = none := by decide
example : validateFieldError true "title" "AB" = some "Title must be at least 3 characters" := by decide
example : validateFieldError true "title" "ABC" = none := by decide
example : validateFieldError true "durationHours" ".5" = none := by decide
example : validateFieldError true "durationHours" "0.5e1" = some "Duration must be a positive number" := by decide

/-! ## `ToNumber` value semantics

Used only to state the specification's reading of the duration rule
("numeric and ≥ 1") with the actual numeric value of the string, which the
code never computes (it combines `isNaN` with `parseInt`). -/

/-- The value of `ToNumber(string)`: `NaN`, a signed infinity, or a finite
value kept in exact decimal fixed-point form, `num / 10 ^ scale`. -/
inductive JSNumber
  | nan
  | inf (neg : Bool)
  | fin (num : Int) (scale : Nat)
deriving DecidableEq, Repr

/-- The rational value of a finite `JSNumber`. -/
def JSNumber.toQ : JSNumber → Option ℚ
  | .fin n k => some ((n : ℚ) / 10 ^ k)
  | _ => none

/-- Multiply a fixed-point value by `10 ^ e` for a signed exponent. -/
def timesPow10 (v : Int × Nat) (e : Int) : Int × Nat :=
  if 0 ≤ e then (v.1 * (10 : Int) ^ e.toNat, v.2) else (v.1, v.2 + (-e).toNat)

/-- Value of an optionally signed exponent digit run (after `e`/`E`). -/
def signedDigitsVal (cs : List Char) : Option Int :=
  let sign : Int := match cs with | '-' :: _ => -1 | _ => 1
  let cs := match cs with | '+' :: r => r | '-' :: r => r | _ => cs
  if !cs.isEmpty && cs.all isDecDigit then some (sign * (digitsToNat 10 cs : Int)) else none

/-- Value of an optional `ExponentPart` consuming the whole remainder. -/
def expTailVal (cs : List Char) : Option Int :=
  match cs with
  | [] => some 0
  | 'e' :: r => signedDigitsVal r
  | 'E' :: r => signedDigitsVal r
  | _ => none

/-- Fixed-point value of `IntDigits . FracDigits`:
`(int · 10^|frac| + frac) / 10^|frac|`. -/
def mantissaVal (intDigits fracDigits : List Char) : Int × Nat :=
  ((digitsToNat 10 intDigits * 10 ^ fracDigits.length + digitsToNat 10 fracDigits : Int),
    fracDigits.length)

/-- Fixed-point value of a `StrUnsignedDecimalLiteral` other than
`Infinity`. -/
def unsignedDecVal (cs : List Char) : Option (Int × Nat) :=
  let intDigits := cs.takeWhile isDecDigit
  let rest := cs.drop intDigits.length
  if intDigits.isEmpty then
    match rest with
    | '.' :: r =>
      let frac := r.takeWhile isDecDigit
      if frac.isEmpty then none
      else (expTailVal (r.drop frac.length)).map (timesPow10 (mantissaVal [] frac))
    | _ => none
  else
    match rest with
    | '.' :: r =>
      let frac := r.takeWhile isDecDigit
      (expTailVal (r.drop frac.length)).map (timesPow10 (mantissaVal intDigits frac))
    | _ => (expTailVal rest).map (timesPow10 (mantissaVal intDigits []))

/-- `ToNumber(string)`: trim, empty means `0`, a numeric literal has its
mathematical value, anything else is `NaN`. -/
def jsToNumber (s : String) : JSNumber :=
  let t := (jsTrim s).data
  if t.isEmpty then .fin 0 0
  else
    match t with
    | '0' :: 'x' :: r => if !r.isEmpty && r.all isHexDigit then .fin (digitsToNat 16 r : Int) 0 else .nan
    | '0' :: 'X' :: r => if !r.isEmpty && r.all isHexDigit then .fin (digitsToNat 16 r : Int) 0 else .nan
    | '0' :: 'o' :: r => if !r.isEmpty && r.all isOctDigit then .fin (digitsToNat 8 r : Int) 0 else .nan
    | '0' :: 'O' :: r => if !r.isEmpty && r.all isOctDigit then .fin (digitsToNat 8 r : Int) 0 else .nan
    | '0' :: 'b' :: r => if !r.isEmpty && r.all isBinDigit then .fin (digitsToNat 2 r : Int) 0 else .nan
    | '0' :: 'B' :: r => if !r.isEmpty && r.all isBinDigit then .fin (digitsToNat 2 r : Int) 0 else .nan
    | _ =>
      let neg : Bool := match t with | '-' :: _ => true | _ => false
      let t' := match t with | '+' :: r => r | '-' :: r => r | _ => t
      if t' = "Infinity".data then .inf neg
      else
        match unsignedDecVal t' with
        | some v => .fin (if neg then -v.1 else v.1) v.2
        | none => .nan

/-- "The value is less than 1", with `NaN` compared false as in JS.  For a
finite value, `num / 10^scale < 1 ↔ num < 10^scale` (see
`JSNumber_fin_lt_one_iff`). -/
def JSNumber.ltOneB : JSNumber → Bool
  | .nan => false
  | .inf neg => neg
  | .fin n k => n < (10 : Int) ^ k

/-- The fixed-point comparison in `JSNumber.ltOneB` agrees with comparing
the rational value against 1. -/
theorem JSNumber_fin_lt_one_iff (n : Int) (k : Nat) :
    (JSNumber.fin n k).ltOneB = true ↔ ((n : ℚ) / 10 ^ k < 1) := by
  have hpos : (0 : ℚ) < 10 ^ k := by positivity
  rw [div_lt_one hpos]
  simp only [JSNumber.ltOneB, decide_eq_true_eq]
  constructor
  · intro h
    exact_mod_cast h
  · intro h
    exact_mod_cast h

/-- The duration rule as the specification words it, with the numeric value
of the string: a non-empty `durationHours` fails iff it is not numeric or
its value is less than 1. -/
def specDurationFails (value : String) : Bool :=
  !(jsTrim value).isEmpty && (jsIsNaN value || (jsToNumber value).ltOneB)

example : jsToNumber ".5" = .fin 5 1 := by decide
example : specDurationFails ".5" = true := by decide
example : specDurationFails "3" = false := by decide
example : specDurationFails "-5" = true := by decide

/-! ## Dates (`ActivityManager.validateDates`) -/

/-- Days in a month of the proleptic Gregorian calendar. -/
def daysInMonth (y m : Nat) : Nat :=
  if m = 2 then (if (y % 4 = 0 && y % 100 ≠ 0) || y % 400 = 0 then 29 else 28)
  else if m = 4 || m = 6 || m = 9 || m = 11 then 30 else 31

/-- Split a character list at every `'-'`. -/
def splitOnDash : List Char → List (List Char)
  | [] => [[]]
  | '-' :: r => [] :: splitOnDash r
  | c :: r =>
    match splitOnDash r with
    | [] => [[c]]
    | g :: gs => (c :: g) :: gs

/-- `new Date(value)` on a date-control value: parse an ISO `YYYY-MM-DD`
string to a key that is strictly monotone in the calendar date; `none`
models an Invalid Date, every comparison with which is false.  A date input
only ever produces `""` or a valid `YYYY-MM-DD` string. -/
def parseJSDate (s : String) : Option Nat :=
  match splitOnDash s.data with
  | [ys, ms, ds] =>
    if ys.length = 4 && ms.length = 2 && ds.length = 2 &&
        ys.all isDecDigit && ms.all isDecDigit && ds.all isDecDigit then
      let y := digitsToNat 10 ys
      let m := digitsToNat 10 ms
      let d := digitsToNat 10 ds
      if 1 ≤ m && m ≤ 12 && 1 ≤ d && d ≤ daysInMonth y m then
        some (y * 10000 + m * 100 + d)
      else none
    else none
  | _ => none

/-- `end < start` on two `new Date` results: a comparison involving an
Invalid Date (`NaN` timestamp) is false. -/
def jsDateLt (a b : Option Nat) : Bool :=
  match a, b with
  | some x, some y => x < y
  | _, _ => false

example : parseJSDate "2025-03-10" = some 20250310 := by decide
example : jsDateLt (parseJSDate "2025-03-05") (parseJSDate "2025-03-10") = true := by decide

/-! ## The form model

`Field` is one form control: its `name` attribute, `required` attribute,
current `value`, the wizard step (`data-step` of the enclosing
`.form-step`) it belongs to, and the visual error state — `errors` is the
list of `.form-error` elements under the control's parent in document order
and `hasErrorClass` its `error` CSS class. -/

structure Field where
  name : String
  required : Bool
  value : String
  step : Nat
  errors : List String
  hasErrorClass : Bool
deriving DecidableEq, Repr

/-- `clearFieldError`: drop the `error` class and remove the first
`.form-error` element under the parent, if any. -/
def clearFieldError (f : Field) : Field :=
  { f with hasErrorClass := false, errors := f.errors.drop 1 }

/-- `showFieldError`: add the `error` class, remove the first existing
`.form-error`, and append a new one with the message. -/
def showFieldError (f : Field) (message : String) : Field :=
  { f with hasErrorClass := true, errors := f.errors.drop 1 ++ [message] }

/-- `validateField`: clear the previous marker, compute the rule outcome,
and mark the field on failure.  Returns the `isValid` result with the
updated control. -/
def validateField (f : Field) : Bool × Field :=
  let f := clearFieldError f
  match validateFieldError f.required f.name f.value with
  | none => (true, f)
  | some msg => (false, showFieldError f msg)

/-- A selected file as the controller sees it (name, size, MIME type). -/
structure FileDesc where
  name : String
  size : Nat
  mimeType : String
deriving DecidableEq, Repr

/-- The controller state owned by the multi-step form: wizard position, the
form controls, and the file input's current list. -/
structure FormState where
  currentStep : Nat
  totalSteps : Nat
  fields : List Field
  selectedFiles : List FileDesc
deriving DecidableEq, Repr

/-- `initializeMultiStepForm`: `currentStep = 1`, `totalSteps = 3`. -/
def initializeMultiStepForm (s : FormState) : FormState :=
  { s with currentStep := 1, totalSteps := 3 }

/-- `document.getElementById(id).value` for a form control (the `id` and
`name` attributes coincide on this form); `""` if absent. -/
def fieldValue (s : FormState) (id : String) : String :=
  ((s.fields.find? (fun f => f.name = id)).map (fun f => f.value)).getD ""

/-- Apply a DOM update to the control with the given id. -/
def updateField (s : FormState) (id : String) (g : Field → Field) : FormState :=
  { s with fields := s.fields.map (fun f => if f.name = id then g f else f) }

/-- `validateDates`: when both date controls are non-empty, compare their
`new Date` values; on `end < start` mark the end-date control and return
false, otherwise clear its marker.  With either value empty nothing is
touched.  (The two date controls are part of the form, so the
element-existence early return of the source never fires.) -/
def validateDates (s : FormState) : Bool × FormState :=
  let startValue := fieldValue s "startDate"
  let endValue := fieldValue s "endDate"
  if !startValue.isEmpty && !endValue.isEmpty then
    if jsDateLt (parseJSDate endValue) (parseJSDate startValue) then
      (false, updateField s "endDate" (fun f => showFieldError f "End date must be after start date"))
    else
      (true, updateField s "endDate" clearFieldError)
  else (true, s)

/-- The per-control pass of `validateCurrentStep`: every control of the
current step is run through `validateField` (no short-circuit). -/
def runStepFields (step : Nat) (fs : List Field) : List Field :=
  fs.map (fun f => if f.step = step then (validateField f).2 else f)

/-- The accumulated `allValid` of the per-control pass. -/
def stepFieldsValid (step : Nat) (fs : List Field) : Bool :=
  fs.all (fun f => f.step != step || (validateField f).1)

/-- `validateCurrentStep`: validate every control of the current step, and
on step 2 additionally the cross-field date rule. -/
def validateCurrentStep (s : FormState) : Bool × FormState :=
  let allValid := stepFieldsValid s.currentStep s.fields
  let s₁ : FormState := { s with fields := runStepFields s.currentStep s.fields }
  if s.currentStep = 2 then
    let r := validateDates s₁
    (allValid && r.1, r.2)
  else (allValid, s₁)

/-- `nextStep`: blocked (with a warning toast) unless the current step
validates; advances only below `totalSteps`. -/
def nextStep (s : FormState) : FormState :=
  let r := validateCurrentStep s
  if !r.1 then r.2
  else if r.2.currentStep < r.2.totalSteps then { r.2 with currentStep := r.2.currentStep + 1 }
  else r.2

/-- `previousStep`: unconditional, but only above step 1. -/
def previousStep (s : FormState) : FormState :=
  if 1 < s.currentStep then { s with currentStep := s.currentStep - 1 } else s

/-- `resetForm`: `form.reset()` restores the authored (empty) control
values and empties the file input; the step returns to 1 and every error
marker and `error` class is removed. -/
def resetForm (s : FormState) : FormState :=
  { s with
    currentStep := 1,
    fields := s.fields.map (fun f => { f with value := "", errors := [], hasErrorClass := false }),
    selectedFiles := [] }

/-- `handleActivitySubmit`, with the eventual result of the
`POST /activities` request passed explicitly.  Returns the new state and
whether the request was issued: nothing is sent when validation fails; on
success the form is reset (and the modal closed, the list refreshed); on
failure only an error notification is shown. -/
def handleActivitySubmit (s : FormState) (result : Except String Unit) : FormState × Bool :=
  let r := validateCurrentStep s
  if !r.1 then (r.2, false)
  else
    match result with
    | .ok _ => (resetForm r.2, true)
    | .error _ => (r.2, true)

/-- `handleFileDrop`: a fresh `DataTransfer` is filled with the dropped
files in order and assigned to the file input, replacing its previous
list. -/
def handleFileDrop (s : FormState) (dropped : List FileDesc) : FormState :=
  { s with selectedFiles := dropped }

/-- The `forEach((file, i) => if (i !== index) dt.items.add(file))` loop of
`removeFile`, with `i` the running position. -/
def keepExcept (index : Int) : Int → List FileDesc → List FileDesc
  | _, [] => []
  | i, f :: rest =>
    if i = index then keepExcept index (i + 1) rest
    else f :: keepExcept index (i + 1) rest

/-- `removeFile(index)`: rebuild the file input's list keeping every file
whose position differs from `index`. -/
def removeFile (s : FormState) (index : Int) : FormState :=
  { s with selectedFiles := keepExcept index 0 s.selectedFiles }

/-! ## Loading activities and the portfolio collaborator -/

/-- The list-loading side of `ActivityManager`: the `isLoading` flag and the
loaded activities, with the activity payload kept abstract. -/
structure LoadState (α : Type) where
  isLoading : Bool
  activities : List α
deriving DecidableEq, Repr

/-- `loadActivities`, with the eventual result of `GET /activities` passed
explicitly; returns the new state and whether the request was issued.  An
in-flight call returns immediately; otherwise the flag is set for the
duration of the call and cleared in the `finally` block on both outcomes. -/
def loadActivities {α : Type} (s : LoadState α) (result : Except String (List α)) :
    LoadState α × Bool :=
  if s.isLoading then (s, false)
  else
    match result with
    | .ok acts => ({ isLoading := false, activities := acts }, true)
    | .error _ => ({ s with isLoading := false }, true)

/-- The in-flight-relevant state of `PortfolioManager`, with a counter of
`POST /portfolio/generate` requests issued. -/
structure PortfolioState where
  isGenerating : Bool
  networkCalls : Nat
deriving DecidableEq, Repr

/-- The synchronous prefix of `generatePortfolio`, up to its `await` on the
`POST /portfolio/generate` request: the `isGenerating` guard makes a second
trigger while one is outstanding a no-op (a warning toast only). -/
def generatePortfolioStart (s : PortfolioState) : PortfolioState :=
  if s.isGenerating then s
  else { isGenerating := true, networkCalls := s.networkCalls + 1 }

/-- The `finally` block of `generatePortfolio`. -/
def generatePortfolioFinish (s : PortfolioState) : PortfolioState :=
  { s with isGenerating := false }

/-- The synchronous prefix of `handleActivitySubmit`, up to its `await` on
the `POST /activities` request: validation runs and, if it passes, the
request is issued; there is no in-progress flag in the source. -/
def handleActivitySubmitStart (s : FormState) (networkCalls : Nat) : FormState × Nat :=
  let r := validateCurrentStep s
  if !r.1 then (r.2, networkCalls) else (r.2, networkCalls + 1)

/-! ## Basic lemmas about the error-marker operations -/

@[simp] theorem clearFieldError_name (f : Field) : (clearFieldError f).name = f.name := rfl
@[simp] theorem clearFieldError_required (f : Field) : (clearFieldError f).required = f.required := rfl
@[simp] theorem clearFieldError_value (f : Field) : (clearFieldError f).value = f.value := rfl
@[simp] theorem clearFieldError_step (f : Field) : (clearFieldError f).step = f.step := rfl
@[simp] theorem clearFieldError_errors (f : Field) : (clearFieldError f).errors = f.errors.drop 1 := rfl

@[simp] theorem showFieldError_name (f : Field) (m : String) : (showFieldError f m).name = f.name := rfl
@[simp] theorem showFieldError_required (f : Field) (m : String) : (showFieldError f m).required = f.required := rfl
@[simp] theorem showFieldError_value (f : Field) (m : String) : (showFieldError f m).value = f.value := rfl
@[simp] theorem showFieldError_step (f : Field) (m : String) : (showFieldError f m).step = f.step := rfl
@[simp] theorem showFieldError_errors (f : Field) (m : String) :
    (showFieldError f m).errors = f.errors.drop 1 ++ [m] := rfl

/-- Unfolding equation of `validateField` with the `let` resolved (the
marker operations do not touch the attributes the rules read). -/
theorem validateField_eq (f : Field) :
    validateField f =
      match validateFieldError f.required f.name f.value with
      | none => (true, clearFieldError f)
      | some m => (false, showFieldError (clearFieldError f) m) := rfl

/-- The `isValid` result of `validateField` is exactly "no rule failed". -/
theorem validateField_fst (f : Field) :
    (validateField f).1 = (validateFieldError f.required f.name f.value).isNone := by
  rw [validateField_eq]
  cases validateFieldError f.required f.name f.value <;> rfl

theorem validateField_snd_name (f : Field) : (validateField f).2.name = f.name := by
  rw [validateField_eq]
  cases validateFieldError f.required f.name f.value <;> rfl

theorem validateField_snd_required (f : Field) : (validateField f).2.required = f.required := by
  rw [validateField_eq]
  cases validateFieldError f.required f.name f.value <;> rfl

theorem validateField_snd_value (f : Field) : (validateField f).2.value = f.value := by
  rw [validateField_eq]
  cases validateFieldError f.required f.name f.value <;> rfl

theorem validateField_snd_step (f : Field) : (validateField f).2.step = f.step := by
  rw [validateField_eq]
  cases validateFieldError f.required f.name f.value <;> rfl

/-- The normal form a control is left in by `validateField` once its marker
list holds at most one element (which is invariably the case for states the
controller itself produced). -/
def canonField (f : Field) : Field :=
  match validateFieldError f.required f.name f.value with
  | none => { f with hasErrorClass := false, errors := [] }
  | some m => { f with hasErrorClass := true, errors := [m] }

theorem drop_one_eq_nil {α : Type} {l : List α} (h : l.length ≤ 1) : l.drop 1 = [] := by
  cases l with
  | nil => rfl
  | cons a t => cases t with
    | nil => rfl
    | cons b u => simp at h

theorem canonField_of_none {f : Field}
    (h : validateFieldError f.required f.name f.value = none) :
    canonField f = { f with hasErrorClass := false, errors := [] } := by
  unfold canonField; rw [h]

theorem canonField_of_some {f : Field} {m : String}
    (h : validateFieldError f.required f.name f.value = some m) :
    canonField f = { f with hasErrorClass := true, errors := [m] } := by
  unfold canonField; rw [h]

theorem validateField_snd_of_le_one {f : Field} (h : f.errors.length ≤ 1) :
    (validateField f).2 = canonField f := by
  rw [validateField_eq]
  cases hv : validateFieldError f.required f.name f.value with
  | none =>
    rw [canonField_of_none hv]
    simp only [clearFieldError, drop_one_eq_nil h]
  | some m =>
    rw [canonField_of_some hv]
    simp only [showFieldError, clearFieldError, drop_one_eq_nil h, List.drop_nil,
      List.nil_append]

@[simp] theorem canonField_name (f : Field) : (canonField f).name = f.name := by
  unfold canonField; cases validateFieldError f.required f.name f.value <;> rfl
@[simp] theorem canonField_required (f : Field) : (canonField f).required = f.required := by
  unfold canonField; cases validateFieldError f.required f.name f.value <;> rfl
@[simp] theorem canonField_value (f : Field) : (canonField f).value = f.value := by
  unfold canonField; cases validateFieldError f.required f.name f.value <;> rfl
@[simp] theorem canonField_step (f : Field) : (canonField f).step = f.step := by
  unfold canonField; cases validateFieldError f.required f.name f.value <;> rfl

theorem canonField_errors_le_one (f : Field) : (canonField f).errors.length ≤ 1 := by
  unfold canonField
  cases validateFieldError f.required f.name f.value <;> simp

theorem canonField_idem (f : Field) : canonField (canonField f) = canonField f := by
  cases h : validateFieldError f.required f.name f.value with
  | none =>
    rw [canonField_of_none h, canonField_of_none (by simpa using h)]
  | some m =>
    rw [canonField_of_some h, canonField_of_some (f := { f with hasErrorClass := true, errors := [m] }) (by simpa using h)]

/-! ## Transport lemmas -/

/-- The value the controller reads for a control id, as a list function. -/
def lookupValue (fs : List Field) (id : String) : String :=
  ((fs.find? (fun f => f.name = id)).map (fun f => f.value)).getD ""

theorem fieldValue_eq (s : FormState) (id : String) :
    fieldValue s id = lookupValue s.fields id := rfl

/-- `lookupValue` is unchanged by any per-control rewrite that keeps names
and values. -/
theorem lookupValue_map {g : Field → Field}
    (hname : ∀ f, (g f).name = f.name) (hvalue : ∀ f, (g f).value = f.value)
    (fs : List Field) (id : String) :
    lookupValue (fs.map g) id = lookupValue fs id := by
  induction fs with
  | nil => rfl
  | cons f rest ih =>
    unfold lookupValue
    rw [List.map_cons]
    by_cases h : f.name = id
    · rw [List.find?_cons_of_pos (List.map g rest) (by simpa [hname] using h),
        List.find?_cons_of_pos rest (by simpa using h)]
      simp [hvalue]
    · rw [List.find?_cons_of_neg (List.map g rest) (by simpa [hname] using h),
        List.find?_cons_of_neg rest (by simpa using h)]
      exact ih

theorem validateField_fst_congr {f g : Field} (hreq : g.required = f.required)
    (hname : g.name = f.name) (hvalue : g.value = f.value) :
    (validateField g).1 = (validateField f).1 := by
  rw [validateField_fst, validateField_fst, hreq, hname, hvalue]

/-- `stepFieldsValid` is unchanged by any per-control rewrite that keeps the
attributes validation reads. -/
theorem stepFieldsValid_map {g : Field → Field}
    (hreq : ∀ f, (g f).required = f.required) (hname : ∀ f, (g f).name = f.name)
    (hvalue : ∀ f, (g f).value = f.value) (hstep : ∀ f, (g f).step = f.step)
    (step : Nat) (fs : List Field) :
    stepFieldsValid step (fs.map g) = stepFieldsValid step fs := by
  unfold stepFieldsValid
  rw [List.all_map, Bool.eq_iff_iff]
  simp only [List.all_eq_true, Function.comp]
  constructor
  · intro h f hf
    have := h f hf
    rwa [hstep, validateField_fst_congr (hreq f) (hname f) (hvalue f)] at this
  · intro h f hf
    have := h f hf
    rwa [hstep, validateField_fst_congr (hreq f) (hname f) (hvalue f)]

/-! ## Unfolding equations for the state-level operations -/

theorem validateCurrentStep_eq (s : FormState) :
    validateCurrentStep s =
      if s.currentStep = 2 then
        (stepFieldsValid s.currentStep s.fields &&
            (validateDates { s with fields := runStepFields s.currentStep s.fields }).1,
          (validateDates { s with fields := runStepFields s.currentStep s.fields }).2)
      else
        (stepFieldsValid s.currentStep s.fields,
          { s with fields := runStepFields s.currentStep s.fields }) := by
  unfold validateCurrentStep
  split <;> rfl

theorem validateDates_eq (s : FormState) :
    validateDates s =
      if !(fieldValue s "startDate").isEmpty && !(fieldValue s "endDate").isEmpty then
        if jsDateLt (parseJSDate (fieldValue s "endDate")) (parseJSDate (fieldValue s "startDate")) then
          (false, updateField s "endDate" (fun f => showFieldError f "End date must be after start date"))
        else
          (true, updateField s "endDate" clearFieldError)
      else (true, s) := rfl

@[simp] theorem updateField_currentStep (s : FormState) (id : String) (g : Field → Field) :
    (updateField s id g).currentStep = s.currentStep := rfl
@[simp] theorem updateField_totalSteps (s : FormState) (id : String) (g : Field → Field) :
    (updateField s id g).totalSteps = s.totalSteps := rfl
@[simp] theorem updateField_selectedFiles (s : FormState) (id : String) (g : Field → Field) :
    (updateField s id g).selectedFiles = s.selectedFiles := rfl

theorem validateDates_snd_currentStep (s : FormState) :
    (validateDates s).2.currentStep = s.currentStep := by
  rw [validateDates_eq]
  split
  · split <;> rfl
  · rfl

theorem validateDates_snd_totalSteps (s : FormState) :
    (validateDates s).2.totalSteps = s.totalSteps := by
  rw [validateDates_eq]
  split
  · split <;> rfl
  · rfl

theorem validateDates_snd_selectedFiles (s : FormState) :
    (validateDates s).2.selectedFiles = s.selectedFiles := by
  rw [validateDates_eq]
  split
  · split <;> rfl
  · rfl

theorem validateCurrentStep_snd_currentStep (s : FormState) :
    (validateCurrentStep s).2.currentStep = s.currentStep := by
  rw [validateCurrentStep_eq]
  split
  · rw [validateDates_snd_currentStep]
  · rfl

theorem validateCurrentStep_snd_totalSteps (s : FormState) :
    (validateCurrentStep s).2.totalSteps = s.totalSteps := by
  rw [validateCurrentStep_eq]
  split
  · rw [validateDates_snd_totalSteps]
  · rfl

theorem validateCurrentStep_snd_selectedFiles (s : FormState) :
    (validateCurrentStep s).2.selectedFiles = s.selectedFiles := by
  rw [validateCurrentStep_eq]
  split
  · rw [validateDates_snd_selectedFiles]
  · rfl

/-! ## The canonical form of the per-step pass -/

/-- What the per-step pass leaves the control list in, once every marker
list holds at most one element. -/
def canonFields (step : Nat) (fs : List Field) : List Field :=
  fs.map (fun f => if f.step = step then canonField f else f)

theorem runStepFields_eq_canonFields {step : Nat} {fs : List Field}
    (h : ∀ f ∈ fs, f.errors.length ≤ 1) :
    runStepFields step fs = canonFields step fs := by
  unfold runStepFields canonFields
  refine List.map_congr_left (fun f hf => ?_)
  by_cases hs : f.step = step
  · rw [if_pos hs, if_pos hs, validateField_snd_of_le_one (h f hf)]
  · rw [if_neg hs, if_neg hs]

theorem canonField_congr {f g : Field} (hname : g.name = f.name)
    (hreq : g.required = f.required) (hvalue : g.value = f.value)
    (hstep : g.step = f.step) : canonField g = canonField f := by
  have hv : validateFieldError g.required g.name g.value =
      validateFieldError f.required f.name f.value := by
    rw [hname, hreq, hvalue]
  cases h : validateFieldError f.required f.name f.value with
  | none =>
    rw [canonField_of_none h, canonField_of_none (hv.trans h)]
    cases f; cases g
    simp_all
  | some m =>
    rw [canonField_of_some h, canonField_of_some (hv.trans h)]
    cases f; cases g
    simp_all

theorem canonFields_errors_le_one {step : Nat} {fs : List Field}
    (h : ∀ f ∈ fs, f.errors.length ≤ 1) :
    ∀ f ∈ canonFields step fs, f.errors.length ≤ 1 := by
  intro f hf
  unfold canonFields at hf
  rcases List.mem_map.mp hf with ⟨g, hg, rfl⟩
  by_cases hs : g.step = step
  · rw [if_pos hs]; exact canonField_errors_le_one g
  · rw [if_neg hs]; exact h g hg

theorem showFieldError_errors_of_le_one {f : Field} (h : f.errors.length ≤ 1) (m : String) :
    (showFieldError f m).errors = [m] := by
  rw [showFieldError_errors, drop_one_eq_nil h]; rfl

theorem clearFieldError_errors_of_le_one {f : Field} (h : f.errors.length ≤ 1) :
    (clearFieldError f).errors = [] := by
  rw [clearFieldError_errors, drop_one_eq_nil h]

/-- Core preservation package: the per-control rewrites occurring in
`validateCurrentStep` keep the attributes the rules read. -/
structure PreservesCore (d : Field → Field) : Prop where
  name : ∀ f, (d f).name = f.name
  required : ∀ f, (d f).required = f.required
  value : ∀ f, (d f).value = f.value
  step : ∀ f, (d f).step = f.step

theorem preservesCore_id : PreservesCore id := ⟨fun _ => rfl, fun _ => rfl, fun _ => rfl, fun _ => rfl⟩

theorem preservesCore_dateShow (m : String) :
    PreservesCore (fun f => if f.name = "endDate" then showFieldError f m else f) := by
  refine ⟨fun f => ?_, fun f => ?_, fun f => ?_, fun f => ?_⟩ <;>
    (by_cases h : f.name = "endDate" <;> simp [h])

theorem preservesCore_dateClear :
    PreservesCore (fun f => if f.name = "endDate" then clearFieldError f else f) := by
  refine ⟨fun f => ?_, fun f => ?_, fun f => ?_, fun f => ?_⟩ <;>
    (by_cases h : f.name = "endDate" <;> simp [h])

/-- Running the per-step pass over an already-canonicalised list, possibly
rewritten by a further core-preserving, marker-bounded `d`, re-canonicalises
the step's controls and leaves the rest to `d`. -/
theorem runStepFields_canon_d {d : Field → Field} (hd : PreservesCore d)
    (hdlen : ∀ f, f.errors.length ≤ 1 → (d f).errors.length ≤ 1)
    (step : Nat) (fs : List Field) :
    runStepFields step ((canonFields step fs).map d) =
      fs.map (fun f => if f.step = step then canonField f else d f) := by
  unfold runStepFields canonFields
  rw [List.map_map, List.map_map]
  refine List.map_congr_left (fun f _ => ?_)
  simp only [Function.comp]
  by_cases hs : f.step = step
  · have hstep2 : (d (canonField f)).step = step := by rw [hd.step, canonField_step, hs]
    rw [if_pos hs, if_pos hstep2, if_pos hs,
      validateField_snd_of_le_one (hdlen _ (canonField_errors_le_one f))]
    exact canonField_congr (by rw [hd.name, canonField_name])
      (by rw [hd.required, canonField_required])
      (by rw [hd.value, canonField_value])
      (by rw [hd.step, canonField_step])
  · have h2 : ¬ (d f).step = step := by rw [hd.step]; exact hs
    rw [if_neg hs, if_neg h2, if_neg hs]

theorem map_d_canon_d {d : Field → Field}
    (hdidem : ∀ f, f.errors.length ≤ 1 → d (d f) = d f)
    {fs : List Field} (h : ∀ f ∈ fs, f.errors.length ≤ 1) (step : Nat) :
    (fs.map (fun f => if f.step = step then canonField f else d f)).map d =
      (canonFields step fs).map d := by
  unfold canonFields
  rw [List.map_map, List.map_map]
  refine List.map_congr_left (fun f hf => ?_)
  simp only [Function.comp]
  by_cases hs : f.step = step
  · rw [if_pos hs, if_pos hs]
  · rw [if_neg hs, if_neg hs]
    exact hdidem f (h f hf)

theorem showFieldError_idem {f : Field} (h : f.errors.length ≤ 1) (m : String) :
    showFieldError (showFieldError f m) m = showFieldError f m := by
  unfold showFieldError
  simp [drop_one_eq_nil h]

theorem clearFieldError_idem {f : Field} (h : f.errors.length ≤ 1) :
    clearFieldError (clearFieldError f) = clearFieldError f := by
  unfold clearFieldError
  simp [drop_one_eq_nil h]

theorem preservesCore_canonFun (step : Nat) :
    PreservesCore (fun f => if f.step = step then canonField f else f) := by
  refine ⟨fun f => ?_, fun f => ?_, fun f => ?_, fun f => ?_⟩ <;>
    (by_cases h : f.step = step <;> simp [h])

theorem preservesCore_canonIf (step : Nat) {d : Field → Field} (hd : PreservesCore d) :
    PreservesCore (fun f => if f.step = step then canonField f else d f) := by
  refine ⟨fun f => ?_, fun f => ?_, fun f => ?_, fun f => ?_⟩ <;>
    (by_cases h : f.step = step <;> simp [h, hd.name, hd.required, hd.value, hd.step])

theorem lookupValue_of_preservesCore {d : Field → Field} (hd : PreservesCore d)
    (fs : List Field) (id : String) :
    lookupValue (fs.map d) id = lookupValue fs id :=
  lookupValue_map hd.name hd.value fs id

theorem stepFieldsValid_of_preservesCore {d : Field → Field} (hd : PreservesCore d)
    (step : Nat) (fs : List Field) :
    stepFieldsValid step (fs.map d) = stepFieldsValid step fs :=
  stepFieldsValid_map hd.required hd.name hd.value hd.step step fs

theorem lookupValue_canonFields (step : Nat) (fs : List Field) (id : String) :
    lookupValue (canonFields step fs) id = lookupValue fs id :=
  lookupValue_of_preservesCore (preservesCore_canonFun step) fs id

theorem stepFieldsValid_canonFields (step : Nat) (fs : List Field) :
    stepFieldsValid step (canonFields step fs) = stepFieldsValid step fs :=
  stepFieldsValid_of_preservesCore (preservesCore_canonFun step) step fs

theorem runStepFields_canonFields (step : Nat) (fs : List Field) :
    runStepFields step (canonFields step fs) = canonFields step fs := by
  have e := runStepFields_canon_d preservesCore_id (fun f hf => by simpa using hf) step fs
  rw [List.map_id] at e
  rw [e]
  unfold canonFields
  exact List.map_congr_left (fun f _ => by by_cases hs : f.step = step <;> simp [hs])

/-- Second run of the per-step pass plus date rule, step ≠ 2 case, as one
lemma: `validateCurrentStep` is a no-op on the canonicalised state. -/
theorem validateCurrentStep_idem_aux_ne (s : FormState) (hn : ¬ s.currentStep = 2)
    (h : ∀ f ∈ s.fields, f.errors.length ≤ 1) :
    validateCurrentStep (validateCurrentStep s).2 = validateCurrentStep s := by
  have e1 : validateCurrentStep s =
      (stepFieldsValid s.currentStep s.fields,
        { s with fields := canonFields s.currentStep s.fields }) := by
    rw [validateCurrentStep_eq, if_neg hn, runStepFields_eq_canonFields h]
  rw [e1]
  rw [validateCurrentStep_eq]
  simp only
  rw [if_neg hn, stepFieldsValid_canonFields, runStepFields_canonFields]

/-- Second run of the per-step pass plus date rule, step = 2 case. -/
theorem validateCurrentStep_idem_aux_2 (s : FormState) (hn : s.currentStep = 2)
    (h : ∀ f ∈ s.fields, f.errors.length ≤ 1) :
    validateCurrentStep (validateCurrentStep s).2 = validateCurrentStep s := by
  obtain ⟨cs, ts, fs, sf⟩ := s
  have hcs : cs = 2 := hn
  subst hcs
  have hfs : ∀ f ∈ fs, f.errors.length ≤ 1 := h
  have e1 : validateCurrentStep ⟨2, ts, fs, sf⟩ =
      (stepFieldsValid 2 fs && (validateDates ⟨2, ts, canonFields 2 fs, sf⟩).1,
        (validateDates ⟨2, ts, canonFields 2 fs, sf⟩).2) := by
    rw [validateCurrentStep_eq]
    simp only
    rw [if_pos trivial, runStepFields_eq_canonFields hfs]
  have hsv : fieldValue ⟨2, ts, canonFields 2 fs, sf⟩ "startDate" = lookupValue fs "startDate" :=
    lookupValue_canonFields 2 fs "startDate"
  have hev : fieldValue ⟨2, ts, canonFields 2 fs, sf⟩ "endDate" = lookupValue fs "endDate" :=
    lookupValue_canonFields 2 fs "endDate"
  by_cases hb : (!(lookupValue fs "startDate").isEmpty && !(lookupValue fs "endDate").isEmpty) = true
  case neg =>
    -- a date control is empty: the cross-field rule does not fire on either run
    have ed : validateDates ⟨2, ts, canonFields 2 fs, sf⟩ =
        (true, ⟨2, ts, canonFields 2 fs, sf⟩) := by
      rw [validateDates_eq, hsv, hev, if_neg hb]
    rw [e1, ed]
    simp only
    rw [validateCurrentStep_eq]
    simp only
    rw [if_pos trivial, runStepFields_canonFields,
      stepFieldsValid_canonFields, ed]
  case pos =>
    by_cases hd2 : jsDateLt (parseJSDate (lookupValue fs "endDate"))
        (parseJSDate (lookupValue fs "startDate")) = true
    case pos =>
      -- `end < start`: both runs mark the end-date control
      have hdlen : ∀ f : Field, f.errors.length ≤ 1 → ((fun f => if f.name = "endDate" then showFieldError f "End date must be after start date" else f) f).errors.length ≤ 1 := by
        intro f hf
        by_cases hnm : f.name = "endDate"
        · simp only [if_pos hnm, showFieldError_errors_of_le_one hf]
          simp
        · simp only [if_neg hnm]; exact hf
      have hdidem : ∀ f : Field, f.errors.length ≤ 1 →
          (fun f => if f.name = "endDate" then showFieldError f "End date must be after start date" else f) ((fun f => if f.name = "endDate" then showFieldError f "End date must be after start date" else f) f) = (fun f => if f.name = "endDate" then showFieldError f "End date must be after start date" else f) f := by
        intro f hf
        by_cases hnm : f.name = "endDate"
        · simp only [if_pos hnm]
          have hnm2 : (showFieldError f "End date must be after start date").name = "endDate" := by
            rw [showFieldError_name, hnm]
          simp only [if_pos hnm2]
          exact showFieldError_idem hf _
        · simp only [if_neg hnm]
      have ed : validateDates ⟨2, ts, canonFields 2 fs, sf⟩ =
          (false, ⟨2, ts, List.map (fun f => if f.name = "endDate" then showFieldError f "End date must be after start date" else f) (canonFields 2 fs), sf⟩) := by
        rw [validateDates_eq, hsv, hev, if_pos hb, if_pos hd2]
        rfl
      have hrun2 : runStepFields 2 (List.map (fun f => if f.name = "endDate" then showFieldError f "End date must be after start date" else f) (canonFields 2 fs)) =
          List.map (fun f => if f.step = 2 then canonField f else if f.name = "endDate" then showFieldError f "End date must be after start date" else f) fs :=
        runStepFields_canon_d (preservesCore_dateShow "End date must be after start date") hdlen 2 fs
      have hsv2 : fieldValue ⟨2, ts, List.map (fun f => if f.step = 2 then canonField f else if f.name = "endDate" then showFieldError f "End date must be after start date" else f) fs, sf⟩ "startDate" = lookupValue fs "startDate" :=
        lookupValue_of_preservesCore
          (preservesCore_canonIf 2 (preservesCore_dateShow "End date must be after start date"))
          fs "startDate"
      have hev2 : fieldValue ⟨2, ts, List.map (fun f => if f.step = 2 then canonField f else if f.name = "endDate" then showFieldError f "End date must be after start date" else f) fs, sf⟩ "endDate" = lookupValue fs "endDate" :=
        lookupValue_of_preservesCore
          (preservesCore_canonIf 2 (preservesCore_dateShow "End date must be after start date"))
          fs "endDate"
      have efin : List.map (fun f => if f.name = "endDate" then showFieldError f "End date must be after start date" else f) (List.map (fun f => if f.step = 2 then canonField f else if f.name = "endDate" then showFieldError f "End date must be after start date" else f) fs) = List.map (fun f => if f.name = "endDate" then showFieldError f "End date must be after start date" else f) (canonFields 2 fs) :=
        map_d_canon_d hdidem hfs 2
      rw [e1, ed]
      simp only
      rw [Bool.and_false]
      rw [validateCurrentStep_eq]
      simp only
      rw [if_pos trivial, hrun2, validateDates_eq, hsv2, hev2,
        if_pos hb, if_pos hd2]
      simp only [updateField]
      rw [Bool.and_false, efin]
    case neg =>
      -- both dates present and in order: both runs clear the end-date marker
      have hdlen : ∀ f : Field, f.errors.length ≤ 1 → ((fun f => if f.name = "endDate" then clearFieldError f else f) f).errors.length ≤ 1 := by
        intro f hf
        by_cases hnm : f.name = "endDate"
        · simp only [if_pos hnm, clearFieldError_errors_of_le_one hf]
          simp
        · simp only [if_neg hnm]; exact hf
      have hdidem : ∀ f : Field, f.errors.length ≤ 1 →
          (fun f => if f.name = "endDate" then clearFieldError f else f) ((fun f => if f.name = "endDate" then clearFieldError f else f) f) = (fun f => if f.name = "endDate" then clearFieldError f else f) f := by
        intro f hf
        by_cases hnm : f.name = "endDate"
        · simp only [if_pos hnm]
          have hnm2 : (clearFieldError f).name = "endDate" := by
            rw [clearFieldError_name, hnm]
          simp only [if_pos hnm2]
          exact clearFieldError_idem hf
        · simp only [if_neg hnm]
      have ed : validateDates ⟨2, ts, canonFields 2 fs, sf⟩ =
          (true, ⟨2, ts, List.map (fun f => if f.name = "endDate" then clearFieldError f else f) (canonFields 2 fs), sf⟩) := by
        rw [validateDates_eq, hsv, hev, if_pos hb, if_neg hd2]
        rfl
      have hrun2 : runStepFields 2 (List.map (fun f => if f.name = "endDate" then clearFieldError f else f) (canonFields 2 fs)) =
          List.map (fun f => if f.step = 2 then canonField f else if f.name = "endDate" then clearFieldError f else f) fs :=
        runStepFields_canon_d preservesCore_dateClear hdlen 2 fs
      have hsv2 : fieldValue ⟨2, ts, List.map (fun f => if f.step = 2 then canonField f else if f.name = "endDate" then clearFieldError f else f) fs, sf⟩ "startDate" = lookupValue fs "startDate" :=
        lookupValue_of_preservesCore (preservesCore_canonIf 2 preservesCore_dateClear)
          fs "startDate"
      have hev2 : fieldValue ⟨2, ts, List.map (fun f => if f.step = 2 then canonField f else if f.name = "endDate" then clearFieldError f else f) fs, sf⟩ "endDate" = lookupValue fs "endDate" :=
        lookupValue_of_preservesCore (preservesCore_canonIf 2 preservesCore_dateClear)
          fs "endDate"
      have efin : List.map (fun f => if f.name = "endDate" then clearFieldError f else f) (List.map (fun f => if f.step = 2 then canonField f else if f.name = "endDate" then clearFieldError f else f) fs) = List.map (fun f => if f.name = "endDate" then clearFieldError f else f) (canonFields 2 fs) :=
        map_d_canon_d hdidem hfs 2
      have hvalid2 : stepFieldsValid 2 (List.map (fun f => if f.name = "endDate" then clearFieldError f else f) (canonFields 2 fs)) =
          stepFieldsValid 2 fs := by
        rw [stepFieldsValid_of_preservesCore preservesCore_dateClear, stepFieldsValid_canonFields]
      rw [e1, ed]
      simp only
      rw [validateCurrentStep_eq]
      simp only
      rw [if_pos trivial, hrun2, validateDates_eq, hsv2, hev2,
        if_pos hb, if_neg hd2]
      simp only [updateField]
      rw [efin, hvalid2]

/-! ## Characterisations used by the claims -/

/-- The accumulated `allValid` of the per-control pass is exactly "no rule
fails on any control of the step". -/
theorem stepFieldsValid_iff (step : Nat) (fs : List Field) :
    stepFieldsValid step fs = true ↔
      ∀ f ∈ fs, f.step = step → validateFieldError f.required f.name f.value = none := by
  unfold stepFieldsValid
  rw [List.all_eq_true]
  simp only [Bool.or_eq_true, bne_iff_ne, ne_eq, validateField_fst,
    Option.isNone_iff_eq_none]
  constructor
  · intro hall f hf hstep
    rcases hall f hf with hne | hnone
    · exact absurd hstep hne
    · exact hnone
  · intro hall f hf
    by_cases hstep : f.step = step
    · exact Or.inr (hall f hf hstep)
    · exact Or.inl hstep

/-- The verdict of the date rule only depends on the two date values. -/
theorem validateDates_fst_congr {t u : FormState}
    (h1 : fieldValue t "startDate" = fieldValue u "startDate")
    (h2 : fieldValue t "endDate" = fieldValue u "endDate") :
    (validateDates t).1 = (validateDates u).1 := by
  rw [validateDates_eq, validateDates_eq, h1, h2]
  by_cases hc : (!(fieldValue u "startDate").isEmpty && !(fieldValue u "endDate").isEmpty) = true
  · rw [if_pos hc, if_pos hc]
    by_cases hd : jsDateLt (parseJSDate (fieldValue u "endDate"))
        (parseJSDate (fieldValue u "startDate")) = true
    · rw [if_pos hd, if_pos hd]
    · rw [if_neg hd, if_neg hd]
  · rw [if_neg hc, if_neg hc]

/-- The per-step pass does not change any control's value. -/
theorem fieldValue_runStepFields (s : FormState) (step : Nat) (id : String) :
    fieldValue { s with fields := runStepFields step s.fields } id = fieldValue s id := by
  rw [fieldValue_eq, fieldValue_eq]
  unfold runStepFields
  exact lookupValue_map
    (fun f => by by_cases hs : f.step = step <;> simp [hs, validateField_snd_name])
    (fun f => by by_cases hs : f.step = step <;> simp [hs, validateField_snd_value])
    s.fields id

/-- The names and values of all controls, in document order. -/
def nameValues (fs : List Field) : List (String × String) :=
  fs.map (fun f => (f.name, f.value))

theorem nameValues_map {g : Field → Field}
    (hname : ∀ f, (g f).name = f.name) (hvalue : ∀ f, (g f).value = f.value)
    (fs : List Field) : nameValues (fs.map g) = nameValues fs := by
  unfold nameValues
  rw [List.map_map]
  exact List.map_congr_left (fun f _ => by simp [Function.comp, hname, hvalue])

theorem nameValues_runStepFields (step : Nat) (fs : List Field) :
    nameValues (runStepFields step fs) = nameValues fs := by
  unfold runStepFields
  exact nameValues_map
    (fun f => by by_cases hs : f.step = step <;> simp [hs, validateField_snd_name])
    (fun f => by by_cases hs : f.step = step <;> simp [hs, validateField_snd_value]) fs

theorem nameValues_updateField_show (s : FormState) (m : String) :
    nameValues (updateField s "endDate" (fun f => showFieldError f m)).fields =
      nameValues s.fields := by
  unfold updateField
  exact nameValues_map
    (fun f => by by_cases hs : f.name = "endDate" <;> simp [hs])
    (fun f => by by_cases hs : f.name = "endDate" <;> simp [hs]) s.fields

theorem nameValues_updateField_clear (s : FormState) :
    nameValues (updateField s "endDate" clearFieldError).fields =
      nameValues s.fields := by
  unfold updateField
  exact nameValues_map
    (fun f => by by_cases hs : f.name = "endDate" <;> simp [hs])
    (fun f => by by_cases hs : f.name = "endDate" <;> simp [hs]) s.fields

theorem nameValues_validateDates (t : FormState) :
    nameValues (validateDates t).2.fields = nameValues t.fields := by
  rw [validateDates_eq]
  by_cases hc : (!(fieldValue t "startDate").isEmpty && !(fieldValue t "endDate").isEmpty) = true
  · rw [if_pos hc]
    by_cases hd : jsDateLt (parseJSDate (fieldValue t "endDate"))
        (parseJSDate (fieldValue t "startDate")) = true
    · rw [if_pos hd]
      exact nameValues_updateField_show t "End date must be after start date"
    · rw [if_neg hd]
      exact nameValues_updateField_clear t
  · rw [if_neg hc]

/-- Validation never changes a control's name or value. -/
theorem nameValues_validateCurrentStep (s : FormState) :
    nameValues (validateCurrentStep s).2.fields = nameValues s.fields := by
  rw [validateCurrentStep_eq]
  split
  · rw [nameValues_validateDates]
    exact nameValues_runStepFields s.currentStep s.fields
  · exact nameValues_runStepFields s.currentStep s.fields

/-- Unfolding equation of `nextStep` with the `let` resolved. -/
theorem nextStep_eq (s : FormState) :
    nextStep s =
      if ! (validateCurrentStep s).1 then (validateCurrentStep s).2
      else if (validateCurrentStep s).2.currentStep < (validateCurrentStep s).2.totalSteps then
        { (validateCurrentStep s).2 with
          currentStep := (validateCurrentStep s).2.currentStep + 1 }
      else (validateCurrentStep s).2 := rfl

theorem nextStep_totalSteps (s : FormState) : (nextStep s).totalSteps = s.totalSteps := by
  rw [nextStep_eq]
  split
  · exact validateCurrentStep_snd_totalSteps s
  · split
    · simpa using validateCurrentStep_snd_totalSteps s
    · exact validateCurrentStep_snd_totalSteps s

/-! ## File-list lemmas -/

/-- With the removal position out of the remaining range, the rebuild loop
keeps every file. -/
theorem keepExcept_all (l : List FileDesc) (index i : Int)
    (h : index < i ∨ i + l.length ≤ index) : keepExcept index i l = l := by
  induction l generalizing i with
  | nil => rfl
  | cons f rest ih =>
    have hlen : ((f :: rest).length : Int) = (rest.length : Int) + 1 := by
      simp [List.length_cons]
    have hne : ¬ i = index := by
      rcases h with h | h
      · omega
      · rw [hlen] at h
        have : (0 : Int) ≤ (rest.length : Int) := Int.natCast_nonneg _
        omega
    unfold keepExcept
    rw [if_neg hne]
    congr 1
    apply ih
    rcases h with h | h
    · left; omega
    · right
      rw [hlen] at h
      omega

/-- With the removal position inside the range, the rebuild loop removes
exactly that element, preserving the order of the rest. -/
theorem keepExcept_take_drop (l : List FileDesc) (k : Nat) (i : Int)
    (hk : k < l.length) :
    keepExcept (i + k) i l = l.take k ++ l.drop (k + 1) := by
  induction l generalizing i k with
  | nil => simp at hk
  | cons f rest ih =>
    cases k with
    | zero =>
      unfold keepExcept
      rw [if_pos (by omega)]
      rw [keepExcept_all rest (i + (0 : Nat)) (i + 1) (by left; omega)]
      simp
    | succ k =>
      unfold keepExcept
      rw [if_neg (by push_cast; omega)]
      simp only [List.take_succ_cons, List.drop_succ_cons, List.cons_append]
      congr 1
      have harith : i + ((k + 1 : Nat) : Int) = (i + 1) + (k : Nat) := by push_cast; omega
      rw [harith]
      exact ih k (i + 1) (by simpa using hk)

/-- `nextStep` advances exactly when validation succeeds below the last
step; `currentStep` is otherwise untouched. -/
theorem nextStep_currentStep (s : FormState) :
    (nextStep s).currentStep =
      if (validateCurrentStep s).1 = true ∧ s.currentStep < s.totalSteps
      then s.currentStep + 1 else s.currentStep := by
  by_cases hv : (validateCurrentStep s).1 = true
  · by_cases hlt : s.currentStep < s.totalSteps
    · have hlt2 : (validateCurrentStep s).2.currentStep < (validateCurrentStep s).2.totalSteps := by
        rw [validateCurrentStep_snd_currentStep, validateCurrentStep_snd_totalSteps]
        exact hlt
      have e : nextStep s =
          { (validateCurrentStep s).2 with
            currentStep := (validateCurrentStep s).2.currentStep + 1 } := by
        rw [nextStep_eq, hv]
        rw [if_neg (by simp), if_pos hlt2]
      rw [e, if_pos ⟨hv, hlt⟩]
      show (validateCurrentStep s).2.currentStep + 1 = s.currentStep + 1
      rw [validateCurrentStep_snd_currentStep]
    · have hlt2 : ¬ (validateCurrentStep s).2.currentStep < (validateCurrentStep s).2.totalSteps := by
        rw [validateCurrentStep_snd_currentStep, validateCurrentStep_snd_totalSteps]
        exact hlt
      have e : nextStep s = (validateCurrentStep s).2 := by
        rw [nextStep_eq, hv]
        rw [if_neg (by simp), if_neg hlt2]
      rw [e, validateCurrentStep_snd_currentStep, if_neg (by tauto)]
  · have hv' : (validateCurrentStep s).1 = false := Bool.eq_false_iff.mpr hv
    have e : nextStep s = (validateCurrentStep s).2 := by
      rw [nextStep_eq, hv']
      rw [if_pos (by simp)]
    rw [e, validateCurrentStep_snd_currentStep, if_neg (by tauto)]

/-- Comparing two `new Date` results succeeds exactly on two valid dates in
strict order. -/
theorem jsDateLt_eq_true_iff (a b : Option Nat) :
    jsDateLt a b = true ↔ ∃ x y, a = some x ∧ b = some y ∧ x < y := by
  unfold jsDateLt
  cases a <;> cases b <;> simp

/-! ## Example states used by witnesses -/

/-- A form sitting on the final step with its (optional) step-3 controls
filled in, ready to submit. -/
def submitReadyState : FormState :=
  { currentStep := 3, totalSteps := 3,
    fields := [⟨"achievement", false, "Won first prize", 3, [], false⟩,
               ⟨"skillsGained", false, "Teamwork, leadership", 3, [], false⟩],
    selectedFiles := [] }

/-- A form on step 1 with a too-short title. -/
def shortTitleState : FormState :=
  { currentStep := 1, totalSteps := 3,
    fields := [⟨"title", true, "AB", 1, [], false⟩,
               ⟨"description", true, "A sufficiently long text", 1, [], false⟩],
    selectedFiles := [] }

/-- A form on step 1 with valid step-1 controls and three selected files. -/
def validStep1State : FormState :=
  { currentStep := 1, totalSteps := 3,
    fields := [⟨"title", true, "Hackathon", 1, [], false⟩,
               ⟨"description", true, "A sufficiently long text", 1, [], false⟩],
    selectedFiles := [⟨"a.pdf", 1, "application/pdf"⟩, ⟨"b.png", 2, "image/png"⟩,
                      ⟨"c.txt", 3, "text/plain"⟩] }

/-- A form on step 2 with the end date before the start date. -/
def badDatesState : FormState :=
  { currentStep := 2, totalSteps := 3,
    fields := [⟨"startDate", true, "2025-03-10", 2, [], false⟩,
               ⟨"endDate", false, "2025-03-05", 2, [], false⟩],
    selectedFiles := [] }

/-! ## The claims -/

/-- C1: the specification requires a boolean in-progress flag on the submit
entry point so that a double trigger issues exactly one `POST /activities`
request, the discipline `generatePortfolio` exhibits with `isGenerating`.
`handleActivitySubmit` has no such flag: with the form valid on the final
step, a second submit event arriving before the first request resolves
passes validation again and issues a second request — two network calls,
where the claim demands exactly one.  The portfolio guard, by contrast,
does collapse the double trigger to one call. -/
theorem doubleSubmit_issues_two_requests :
    (handleActivitySubmitStart (handleActivitySubmitStart submitReadyState 0).1
        (handleActivitySubmitStart submitReadyState 0).2).2 = 2 ∧
    (generatePortfolioStart (generatePortfolioStart ⟨false, 0⟩)).networkCalls = 1 ∧
    (generatePortfolioStart ⟨false, 0⟩).networkCalls = 1 := by
  constructor
  · decide
  · constructor <;> decide

/-- C3: for every state, `nextStep` moves `currentStep` from n to n+1
exactly when the current step validates and n < totalSteps, and otherwise
leaves it unchanged; and the validation verdict is exactly "every control of
step n passes its rules" (plus the date rule on step 2). -/
theorem nextStep_advances_iff (s : FormState) :
    ((nextStep s).currentStep =
      if (validateCurrentStep s).1 = true ∧ s.currentStep < s.totalSteps
      then s.currentStep + 1 else s.currentStep) ∧
    ((validateCurrentStep s).1 = true ↔
      ((∀ f ∈ s.fields, f.step = s.currentStep →
          validateFieldError f.required f.name f.value = none) ∧
        (s.currentStep = 2 → (validateDates s).1 = true))) := by
  refine ⟨nextStep_currentStep s, ?_⟩
  rw [validateCurrentStep_eq]
  by_cases hs2 : s.currentStep = 2
  · rw [if_pos hs2]
    have hd : (validateDates { s with fields := runStepFields s.currentStep s.fields }).1 =
        (validateDates s).1 :=
      validateDates_fst_congr (fieldValue_runStepFields s s.currentStep "startDate")
        (fieldValue_runStepFields s s.currentStep "endDate")
    rw [hd, Bool.and_eq_true, stepFieldsValid_iff]
    simp [hs2]
  · rw [if_neg hs2, stepFieldsValid_iff]
    simp [hs2]

/-- C3 witness: on a step-1 form whose title is too short, `nextStep` stays
on step 1; with the title fixed it moves to step 2. -/
theorem nextStep_advances_iff_witness :
    (nextStep shortTitleState).currentStep = 1 ∧
    (nextStep validStep1State).currentStep = 2 := by
  constructor
  · rw [(nextStep_advances_iff shortTitleState).1]
    rw [if_neg (by decide)]
    rfl
  · rw [(nextStep_advances_iff validStep1State).1]
    rw [if_pos (by decide)]
    rfl

/-- C4: `1 ≤ currentStep ≤ totalSteps` holds in the initial state
(`currentStep = 1`, `totalSteps = 3`) and is preserved by `nextStep`,
`previousStep` and `resetForm`. -/
theorem currentStep_range_invariant (s₀ s : FormState) :
    (1 ≤ (initializeMultiStepForm s₀).currentStep ∧
      (initializeMultiStepForm s₀).currentStep ≤ (initializeMultiStepForm s₀).totalSteps) ∧
    (1 ≤ s.currentStep ∧ s.currentStep ≤ s.totalSteps →
      ((1 ≤ (nextStep s).currentStep ∧ (nextStep s).currentStep ≤ (nextStep s).totalSteps) ∧
        (1 ≤ (previousStep s).currentStep ∧
          (previousStep s).currentStep ≤ (previousStep s).totalSteps) ∧
        (1 ≤ (resetForm s).currentStep ∧
          (resetForm s).currentStep ≤ (resetForm s).totalSteps))) := by
  constructor
  · exact ⟨le_refl 1, by show (1 : Nat) ≤ 3; omega⟩
  · rintro ⟨h1, h2⟩
    refine ⟨?_, ?_, ?_⟩
    · rw [nextStep_totalSteps, nextStep_currentStep]
      split
      · next hcond => omega
      · omega
    · unfold previousStep
      split
      · next hgt =>
        constructor
        · show 1 ≤ s.currentStep - 1
          omega
        · show s.currentStep - 1 ≤ s.totalSteps
          omega
      · exact ⟨h1, h2⟩
    · exact ⟨le_refl 1, by show (1 : Nat) ≤ s.totalSteps; omega⟩

/-- C4 witness: the invariant at the initialised state and after one
`nextStep` from a valid step-1 form. -/
theorem currentStep_range_invariant_witness :
    (1 ≤ (initializeMultiStepForm validStep1State).currentStep ∧
      (initializeMultiStepForm validStep1State).currentStep ≤
        (initializeMultiStepForm validStep1State).totalSteps) ∧
    (1 ≤ (nextStep validStep1State).currentStep ∧
      (nextStep validStep1State).currentStep ≤ (nextStep validStep1State).totalSteps) := by
  have h := currentStep_range_invariant validStep1State validStep1State
  exact ⟨h.1, (h.2 (by decide)).1⟩

/-- Unfolding equation of `handleActivitySubmit` with the `let` resolved. -/
theorem handleActivitySubmit_eq (s : FormState) (r : Except String Unit) :
    handleActivitySubmit s r =
      if ! (validateCurrentStep s).1 then ((validateCurrentStep s).2, false)
      else
        match r with
        | .ok _ => (resetForm (validateCurrentStep s).2, true)
        | .error _ => ((validateCurrentStep s).2, true) := rfl

/-- C2: submitting from the last step with a valid form issues the request;
on success the form is reset (step 1, every error marker cleared, file list
emptied); on failure the step stays at `totalSteps` and every control keeps
its name and value, as does the file list — no partial reset. -/
theorem handleActivitySubmit_atomicity (s : FormState)
    (hstep : s.currentStep = s.totalSteps)
    (hvalid : (validateCurrentStep s).1 = true) :
    ((handleActivitySubmit s (.ok ())).1.currentStep = 1 ∧
      (∀ f ∈ (handleActivitySubmit s (.ok ())).1.fields,
        f.errors = [] ∧ f.hasErrorClass = false) ∧
      (handleActivitySubmit s (.ok ())).1.selectedFiles = [] ∧
      (handleActivitySubmit s (.ok ())).2 = true) ∧
    (∀ e : String,
      (handleActivitySubmit s (.error e)).1.currentStep = s.totalSteps ∧
      nameValues (handleActivitySubmit s (.error e)).1.fields = nameValues s.fields ∧
      (handleActivitySubmit s (.error e)).1.selectedFiles = s.selectedFiles ∧
      (handleActivitySubmit s (.error e)).2 = true) := by
  have hok : handleActivitySubmit s (.ok ()) =
      (resetForm (validateCurrentStep s).2, true) := by
    rw [handleActivitySubmit_eq, hvalid]
    rw [if_neg (by simp)]
  have herr : ∀ e : String,
      handleActivitySubmit s (.error e) = ((validateCurrentStep s).2, true) := by
    intro e
    rw [handleActivitySubmit_eq, hvalid]
    rw [if_neg (by simp)]
  constructor
  · rw [hok]
    refine ⟨rfl, ?_, rfl, rfl⟩
    intro f hf
    simp only [resetForm] at hf
    rcases List.mem_map.mp hf with ⟨g, _, rfl⟩
    exact ⟨rfl, rfl⟩
  · intro e
    rw [herr e]
    refine ⟨?_, ?_, ?_, rfl⟩
    · show (validateCurrentStep s).2.currentStep = s.totalSteps
      rw [validateCurrentStep_snd_currentStep, hstep]
    · show nameValues (validateCurrentStep s).2.fields = nameValues s.fields
      exact nameValues_validateCurrentStep s
    · show (validateCurrentStep s).2.selectedFiles = s.selectedFiles
      exact validateCurrentStep_snd_selectedFiles s

/-- C2 witness: on the ready-to-submit form, success resets to step 1 with
no files and no markers; failure keeps step 3 and the entered values. -/
theorem handleActivitySubmit_atomicity_witness :
    (handleActivitySubmit submitReadyState (.ok ())).1.currentStep = 1 ∧
    (handleActivitySubmit submitReadyState (.error "boom")).1.currentStep = 3 ∧
    nameValues (handleActivitySubmit submitReadyState (.error "boom")).1.fields =
      nameValues submitReadyState.fields := by
  have h := handleActivitySubmit_atomicity submitReadyState (by decide) (by decide)
  exact ⟨h.1.1, (h.2 "boom").1, (h.2 "boom").2.1⟩

/-- C6: the date rule fails (returning false and marking `endDate` with
"End date must be after start date") exactly when both date values are
present and parse with the end date strictly before the start date; equal
dates pass, and with either value absent the state — hence every error
marker — is left untouched. -/
theorem validateDates_characterisation (s : FormState) :
    ((validateDates s).1 = false ↔
      fieldValue s "startDate" ≠ "" ∧ fieldValue s "endDate" ≠ "" ∧
      ∃ ds de, parseJSDate (fieldValue s "startDate") = some ds ∧
        parseJSDate (fieldValue s "endDate") = some de ∧ de < ds) ∧
    ((validateDates s).1 = false →
      (validateDates s).2 =
        updateField s "endDate" (fun f => showFieldError f "End date must be after start date")) ∧
    (fieldValue s "startDate" = "" ∨ fieldValue s "endDate" = "" →
      (validateDates s).2 = s) ∧
    (parseJSDate (fieldValue s "endDate") = parseJSDate (fieldValue s "startDate") →
      (validateDates s).1 = true) := by
  rw [validateDates_eq]
  by_cases hc : (!(fieldValue s "startDate").isEmpty && !(fieldValue s "endDate").isEmpty) = true
  · have hne : fieldValue s "startDate" ≠ "" ∧ fieldValue s "endDate" ≠ "" := by
      rcases Bool.and_eq_true_iff.mp hc with ⟨h1, h2⟩
      rw [Bool.not_eq_true'] at h1 h2
      constructor
      · intro hx; rw [hx] at h1; exact absurd h1 (by decide)
      · intro hx; rw [hx] at h2; exact absurd h2 (by decide)
    rw [if_pos hc]
    by_cases hd : jsDateLt (parseJSDate (fieldValue s "endDate"))
        (parseJSDate (fieldValue s "startDate")) = true
    · rw [if_pos hd]
      rcases (jsDateLt_eq_true_iff _ _).mp hd with ⟨de, ds, hde, hds, hlt⟩
      refine ⟨?_, ?_, ?_, ?_⟩
      · constructor
        · intro _
          exact ⟨hne.1, hne.2, ds, de, hds, hde, hlt⟩
        · intro _
          rfl
      · intro _; rfl
      · rintro (hx | hx)
        · exact absurd hx hne.1
        · exact absurd hx hne.2
      · intro heq
        rw [heq] at hde
        rw [hds] at hde
        cases hde
        exact absurd hlt (lt_irrefl _)
    · rw [if_neg hd]
      refine ⟨?_, ?_, ?_, ?_⟩
      · constructor
        · intro hh
          exact absurd hh (by simp)
        · rintro ⟨_, _, ds, de, hds, hde, hlt⟩
          exact absurd ((jsDateLt_eq_true_iff _ _).mpr ⟨de, ds, hde, hds, hlt⟩) hd
      · intro hfalse; exact absurd hfalse (by simp)
      · rintro (hx | hx)
        · exact absurd hx hne.1
        · exact absurd hx hne.2
      · intro _; rfl
  · have hemp : fieldValue s "startDate" = "" ∨ fieldValue s "endDate" = "" := by
      by_contra hcon
      push_neg at hcon
      apply hc
      rw [Bool.and_eq_true_iff, Bool.not_eq_true', Bool.not_eq_true']
      constructor
      · cases he : (fieldValue s "startDate").isEmpty
        · rfl
        · exact absurd ((String.isEmpty_iff _).mp (by rw [he])) hcon.1
      · cases he : (fieldValue s "endDate").isEmpty
        · rfl
        · exact absurd ((String.isEmpty_iff _).mp (by rw [he])) hcon.2
    rw [if_neg hc]
    refine ⟨?_, ?_, ?_, ?_⟩
    · constructor
      · intro hh
        exact absurd hh (by simp)
      · rintro ⟨h1, h2, _⟩
        rcases hemp with hx | hx
        · exact (h1 hx).elim
        · exact (h2 hx).elim
    · intro hfalse; exact absurd hfalse (by simp)
    · intro _; rfl
    · intro _; rfl

/-- C6 witness: start 2025-03-10 with end 2025-03-05 fails and marks the
end-date control; end 2025-03-15 passes. -/
theorem validateDates_characterisation_witness :
    (validateDates badDatesState).1 = false ∧
    (validateDates badDatesState).2 =
      updateField badDatesState "endDate"
        (fun f => showFieldError f "End date must be after start date") ∧
    (validateDates { badDatesState with fields :=
      [⟨"startDate", true, "2025-03-10", 2, [], false⟩,
       ⟨"endDate", false, "2025-03-15", 2, [], false⟩] }).1 = true := by
  have h1 := validateDates_characterisation badDatesState
  have hfail : (validateDates badDatesState).1 = false :=
    h1.1.mpr (by refine ⟨by decide, by decide, 20250310, 20250305, ?_, ?_, by decide⟩ <;> decide)
  refine ⟨hfail, h1.2.1 hfail, ?_⟩
  have h2 := validateDates_characterisation { badDatesState with fields :=
    [⟨"startDate", true, "2025-03-10", 2, [], false⟩,
     ⟨"endDate", false, "2025-03-15", 2, [], false⟩] }
  cases hv : (validateDates { badDatesState with fields :=
    [⟨"startDate", true, "2025-03-10", 2, [], false⟩,
     ⟨"endDate", false, "2025-03-15", 2, [], false⟩] }).1
  · exfalso
    rcases h2.1.mp hv with ⟨_, _, ds, de, hds, hde, hlt⟩
    rw [show parseJSDate (fieldValue { badDatesState with fields :=
        [⟨"startDate", true, "2025-03-10", 2, [], false⟩,
         ⟨"endDate", false, "2025-03-15", 2, [], false⟩] } "startDate") = some 20250310 from by decide] at hds
    rw [show parseJSDate (fieldValue { badDatesState with fields :=
        [⟨"startDate", true, "2025-03-10", 2, [], false⟩,
         ⟨"endDate", false, "2025-03-15", 2, [], false⟩] } "endDate") = some 20250315 from by decide] at hde
    cases hds
    cases hde
    omega
  · rfl

/-- C7: `validateStep` is idempotent — a second `validateCurrentStep` on the
state produced by a first one (every control carrying at most one error
marker, which the controller maintains) returns the identical verdict and
the identical error state, with no duplicated markers. -/
theorem validateCurrentStep_idempotent (s : FormState)
    (h : ∀ f ∈ s.fields, f.errors.length ≤ 1) :
    validateCurrentStep (validateCurrentStep s).2 = validateCurrentStep s := by
  by_cases hn : s.currentStep = 2
  · exact validateCurrentStep_idem_aux_2 s hn h
  · exact validateCurrentStep_idem_aux_ne s hn h

/-- C7 witness: running validation twice on the short-title form yields the
same result as once. -/
theorem validateCurrentStep_idempotent_witness :
    validateCurrentStep (validateCurrentStep shortTitleState).2 =
      validateCurrentStep shortTitleState :=
  validateCurrentStep_idempotent shortTitleState (by decide)

/-- C5 counterexample: the claim reads the duration rule as "a non-empty
value that is not numeric or is less than 1 fails".  The string `".5"` is
non-empty, numeric (`isNaN(".5")` is false) and its numeric value `1/2` is
less than 1, so the claimed rule demands a failure; `validateField` accepts
it, because the code tests `parseInt(value) < 1`, `parseInt(".5")` is `NaN`,
and a `NaN` comparison is false. -/
theorem durationRule_real_value_counterexample :
    specDurationFails ".5" = true ∧
    validateFieldError true "durationHours" ".5" = none := by
  constructor <;> decide

/-- C5 amended: `validateField` reproduces the rule table with the duration
rule read through the code's own test: a required field empty after trim
fails; a non-empty title shorter than 3 (description shorter than 10)
UTF-16 units fails; a non-empty durationHours fails iff `isNaN` holds of it
or its `parseInt` value is an integer below 1 (so `"-5"` fails and `"3"`
passes, but `".5"` passes and `"0.5e1"` fails); every other value passes. -/
theorem validateField_rule_table (required : Bool) (name value : String) :
    validateFieldError required name value =
      (if jsTrim value = "" then (if required then some "This field is required" else none)
      else if name = "title" ∧ jsLength (jsTrim value) < 3 then
        some "Title must be at least 3 characters"
      else if name = "description" ∧ jsLength (jsTrim value) < 10 then
        some "Description must be at least 10 characters"
      else if name = "durationHours" ∧
          (jsIsNaN (jsTrim value) || parseIntLtOne (jsTrim value)) = true then
        some "Duration must be a positive number"
      else none) := by
  unfold validateFieldError
  by_cases hv : jsTrim value = ""
  · rw [if_pos hv]
    simp only [hv]
    have hE : ("" : String).isEmpty = true := by decide
    cases required <;> simp [hE]
  · rw [if_neg hv]
    have hvE : (jsTrim value).isEmpty = false := by
      cases he : (jsTrim value).isEmpty
      · rfl
      · exact absurd ((String.isEmpty_iff _).mp (by rw [he])) hv
    by_cases hn1 : name = "title"
    · by_cases hlen : jsLength (jsTrim value) < 3 <;> simp [hn1, hlen, hvE]
    · by_cases hn2 : name = "description"
      · by_cases hlen : jsLength (jsTrim value) < 10 <;> simp [hn1, hn2, hlen, hvE]
      · by_cases hn3 : name = "durationHours"
        · by_cases hdur : (jsIsNaN (jsTrim value) || parseIntLtOne (jsTrim value)) = true <;>
            simp [hn1, hn2, hn3, hdur, hvE]
        · simp [hn1, hn2, hn3, hvE]

/-- C8 counterexample: the claim says adding files appends them to the end
of the existing list.  Dropping one new file onto a selection already
holding three replaces the selection with just the new file instead of
appending it: `handleFileDrop` rebuilds the file input from a fresh
`DataTransfer` holding only the dropped files. -/
theorem handleFileDrop_replaces_not_appends :
    (handleFileDrop validStep1State [⟨"d.pdf", 4, "application/pdf"⟩]).selectedFiles ≠
      validStep1State.selectedFiles ++ [⟨"d.pdf", 4, "application/pdf"⟩] := by
  decide

/-- C8 amended: adding files replaces the selection with the added files in
their given order (rather than appending); `removeFile(i)` removes exactly
the element at position i without disturbing the relative order of the
rest; and after adding 3 files and removing index 1, the original items 0
and 2 sit at positions 0 and 1 in their original relative order. -/
theorem fileList_mutations (s : FormState) (dropped : List FileDesc) (i : Nat)
    (hi : i < s.selectedFiles.length) :
    (handleFileDrop s dropped).selectedFiles = dropped ∧
    (removeFile s (i : Int)).selectedFiles =
      s.selectedFiles.take i ++ s.selectedFiles.drop (i + 1) ∧
    (∀ f0 f1 f2 : FileDesc,
      (removeFile (handleFileDrop s [f0, f1, f2]) 1).selectedFiles = [f0, f2]) := by
  refine ⟨rfl, ?_, ?_⟩
  · show keepExcept (i : Int) 0 s.selectedFiles = _
    have h0 : ((0 : Int) + (i : Nat)) = ((i : Nat) : Int) := by omega
    rw [← h0]
    exact keepExcept_take_drop s.selectedFiles i 0 hi
  · intro f0 f1 f2
    rfl

/-- C8 amended witness: removing index 1 from the three-file selection
keeps files 0 and 2 in order. -/
theorem fileList_mutations_witness :
    (removeFile validStep1State ((1 : Nat) : Int)).selectedFiles =
      validStep1State.selectedFiles.take 1 ++ validStep1State.selectedFiles.drop (1 + 1) :=
  (fileList_mutations validStep1State [] 1 (by decide)).2.1

/-- C9: `removeFile(index)` with the index below 0 or at/after the list
length keeps every file and raises nothing — a total, silent no-op. -/
theorem removeFile_out_of_range (s : FormState) (index : Int)
    (h : index < 0 ∨ (s.selectedFiles.length : Int) ≤ index) :
    removeFile s index = s := by
  unfold removeFile
  rw [keepExcept_all s.selectedFiles index 0
    (by rcases h with h | h
        · left; omega
        · right; omega)]

/-- C9 witness: removing index 5 or −1 from the three-file selection
changes nothing. -/
theorem removeFile_out_of_range_witness :
    removeFile validStep1State 5 = validStep1State ∧
    removeFile validStep1State (-1) = validStep1State :=
  ⟨removeFile_out_of_range validStep1State 5 (by decide),
    removeFile_out_of_range validStep1State (-1) (by decide)⟩

/-- C10: `loadActivities` is re-entrancy guarded by `isLoading`: a call
while a request is in flight returns at once with no network request; the
request is issued exactly when the flag is down; and the `finally` block
leaves the flag down on success and failure alike, so a later call can
proceed. -/
theorem loadActivities_reentrancy_guard {α : Type} (s : LoadState α)
    (r : Except String (List α)) :
    (s.isLoading = true → loadActivities s r = (s, false)) ∧
    ((loadActivities s r).2 = !s.isLoading) ∧
    (s.isLoading = false → (loadActivities s r).1.isLoading = false) := by
  refine ⟨?_, ?_, ?_⟩
  · intro hl
    unfold loadActivities
    rw [if_pos hl]
  · unfold loadActivities
    cases hl : s.isLoading
    · cases r <;> simp
    · simp
  · intro hl
    unfold loadActivities
    rw [if_neg (by simp [hl])]
    cases r <;> rfl

/-- C10 witness: an in-flight state swallows the call; a quiescent state
runs it and ends with the flag down. -/
theorem loadActivities_reentrancy_guard_witness :
    loadActivities (⟨true, []⟩ : LoadState String) (.ok ["a"]) = (⟨true, []⟩, false) ∧
    (loadActivities (⟨false, []⟩ : LoadState String) (.ok ["a"])).1.isLoading = false := by
  have h1 := loadActivities_reentrancy_guard (⟨true, []⟩ : LoadState String) (.ok ["a"])
  have h2 := loadActivities_reentrancy_guard (⟨false, []⟩ : LoadState String) (.ok ["a"])
  exact ⟨h1.1 rfl, h2.2.2 rfl⟩

end StudentHub
